import Mathlib

/-
Verification of the batch conversion orchestration engine of the Bosch UDF
Converter (src/tk.py) against its specification.

The worker loop `App._worker_run` (src/tk.py lines 418-500), the pre-flight
collision check `_find_collisions` / `_name_suffix` (lines 503-514), and the
queue operation `_add_files` (lines 316-327) are embedded as pure Lean
functions.  External effects are abstracted into an environment `Env`:

  * the Tk `BooleanVar`/`StringVar` configuration variables are read by the
    worker at distinct moments (once at batch start for the snapshot, once per
    item for `skip_existing`, once after the loop for `zip_outputs`); they are
    modelled as a time-indexed family `varsAt : Nat → LiveVars`, index 0 being
    the batch-start reads, index `idx` the reads during item `idx` (1-based),
    and index `total + 1` the read after the loop;
  * `stop_flag.is_set()` at the boundary of item `idx` is `stopAt idx`;
  * `Path.exists()` is `fsExists`;
  * the outcome of every fallible external call for item `idx`
    (`dec.read_bin_file`, `dec.add_user_meta_data`, the parquet
    `get_arrow_table` + `pq.write_table` step, the csv
    `get_pandas_dataframe` + `to_csv` step) is `oracle idx`;
  * success of `zf.write(p, arcname=p.name)` is `zipAddOk p`;
  * the values returned by the wall-clock reads `ts_now()` at the two
    `_name_suffix()` call sites are `tsPreflight` (inside `_on_convert`) and
    `tsWorker` (inside `_worker_run`); distinct calls may observe distinct
    clock values.

Observable behaviour of a run is the ordered list of status / progress events
(the `_set_status` / `_set_progress` calls), the accumulated `produced` list,
and the archive contents of the optional ZIP bundling step.
-/

set_option autoImplicit false

namespace UdfGui

/-- Per-item status, matching the status strings written into the queue view
("Queued", "Running", "Done", "Skipped", "Error", "Cancelled"). -/
inductive Status where
  | Queued
  | Running
  | Done
  | Skipped
  | Error
  | Cancelled
deriving DecidableEq

/-- The values of the Tk configuration variables at one moment in time
(src/tk.py lines 119-127). -/
structure LiveVars where
  write_parquet : Bool
  write_csv : Bool
  scaling : Bool
  user_message : String
  timestamp_suffix : Bool
  skip_existing : Bool
  zip_outputs : Bool
deriving DecidableEq

/-- Outcome of the fallible external calls made while processing one item:
`readOk` for `dec.read_bin_file`, `metaOk` for `dec.add_user_meta_data`,
`parquetOk` for `dec.get_arrow_table` + `pq.write_table`, `csvOk` for
`dec.get_pandas_dataframe` + `df.to_csv`.  `false` means the call raises. -/
structure ItemOracle where
  readOk : Bool
  metaOk : Bool
  parquetOk : Bool
  csvOk : Bool
deriving DecidableEq

/-- The environment a run executes in (see the file header comment). -/
structure Env where
  varsAt : Nat → LiveVars
  stopAt : Nat → Bool
  fsExists : String → Bool
  oracle : Nat → ItemOracle
  zipAddOk : String → Bool
  tsPreflight : String
  tsWorker : String

/-- Events emitted by the worker: a `_set_status` call for item `idx` and a
`_set_progress(idx)` call (the progress bar maximum is the item total). -/
inductive Event where
  | statusEv (idx : Nat) (s : Status)
  | progressEv (idx : Nat) (total : Nat)
deriving DecidableEq

/-- The local variables `_worker_run` computes once before its loop
(src/tk.py lines 426-430): `do_parq`, `do_csv`, `apply_scaling`,
`user_msg`, `suffix`. -/
structure Snapshot where
  do_parq : Bool
  do_csv : Bool
  apply_scaling : Bool
  user_msg : Option String
  suffix : String
deriving DecidableEq

/-- src/tk.py lines 503-504: `_name_suffix` returns `"_" + ts_now()` when the
timestamp-suffix option is set, else the empty string; `now` is the value the
embedded `ts_now()` call returns. -/
def name_suffix (timestamp_suffix : Bool) (now : String) : String :=
  if timestamp_suffix then "_" ++ now else ""

/-- An output path `out_dir / (base + ext)` (src/tk.py lines 440-441). -/
def plannedPath (out_dir base ext : String) : String :=
  out_dir ++ "/" ++ base ++ ext

/-- `p.exists()` lifted to the optional planned paths: `None` counts as not
existing (the `parq_path and parq_path.exists()` guards, lines 445-446). -/
def pathExists (fsExists : String → Bool) : Option String → Bool
  | none => false
  | some p => fsExists p

/-- Python's `str.strip()`: the string with leading and trailing whitespace
removed. -/
def pyStrip (s : String) : String :=
  ⟨((s.data.dropWhile Char.isWhitespace).reverse.dropWhile Char.isWhitespace).reverse⟩

/-- The snapshot reads at the top of `_worker_run` (src/tk.py lines 426-430),
from the variable values `v` at batch start and the `ts_now()` value of the
worker's `_name_suffix()` call.  `user_msg` is
`self.user_message.get().strip() or None` (an empty string is falsy). -/
def mkSnapshot (v : LiveVars) (tsWorker : String) : Snapshot :=
  { do_parq := v.write_parquet
    do_csv := v.write_csv
    apply_scaling := v.scaling
    user_msg := if pyStrip v.user_message = "" then none
                else some (pyStrip v.user_message)
    suffix := name_suffix v.timestamp_suffix tsWorker }

/-- The snapshot an environment's run starts with. -/
def activeSnap (env : Env) : Snapshot :=
  mkSnapshot (env.varsAt 0) env.tsWorker

/-- src/tk.py lines 443-447: the skip-existing test for item `idx` with stem
`stem`.  Note `self.skip_existing.get()` is a live read during item `idx`,
and `existed` is true when the parquet path or the csv path exists. -/
def skipCheck (out_dir : String) (snap : Snapshot) (env : Env) (idx : Nat)
    (stem : String) : Bool :=
  (env.varsAt idx).skip_existing &&
    (pathExists env.fsExists
        (if snap.do_parq then some (plannedPath out_dir (stem ++ snap.suffix) ".parquet") else none) ||
     pathExists env.fsExists
        (if snap.do_csv then some (plannedPath out_dir (stem ++ snap.suffix) ".csv") else none))

/-- src/tk.py lines 455-480: the decode-and-write body for one item, after the
skip test.  Returns the terminal status and the paths appended to `produced`
(each appended only after its write succeeded).  Any failing call yields
`Error`; the parquet path stays in the additions when the later csv step
fails. -/
def itemBody (snap : Snapshot) (o : ItemOracle)
    (parq_path csv_path : Option String) : Status × List String :=
  if !o.readOk then (Status.Error, [])
  else if snap.user_msg.isSome && !o.metaOk then (Status.Error, [])
  else
    match parq_path with
    | some p =>
      if o.parquetOk then
        match csv_path with
        | some c => if o.csvOk then (Status.Done, [p, c]) else (Status.Error, [p])
        | none => (Status.Done, [p])
      else (Status.Error, [])
    | none =>
      match csv_path with
      | some c => if o.csvOk then (Status.Done, [c]) else (Status.Error, [])
      | none => (Status.Done, [])

/-- Whether some external call raises during the decode-and-write body of an
item with snapshot `s` and call outcomes `o` (`s.do_parq`/`s.do_csv` decide
whether the parquet/csv steps run, `s.user_msg` whether metadata is
attached). -/
def itemRaises (s : Snapshot) (o : ItemOracle) : Bool :=
  !o.readOk || (s.user_msg.isSome && !o.metaOk) ||
  (s.do_parq && !o.parquetOk) || (s.do_csv && !o.csvOk)

/-- src/tk.py lines 438-480: the outcome of one non-cancelled iteration for
item `idx` with stem `stem`: terminal status plus `produced` additions. -/
def itemOutcome (out_dir : String) (snap : Snapshot) (env : Env) (idx : Nat)
    (stem : String) : Status × List String :=
  let base := stem ++ snap.suffix
  let parq_path : Option String :=
    if snap.do_parq then some (plannedPath out_dir base ".parquet") else none
  let csv_path : Option String :=
    if snap.do_csv then some (plannedPath out_dir base ".csv") else none
  if skipCheck out_dir snap env idx stem then (Status.Skipped, [])
  else itemBody snap (env.oracle idx) parq_path csv_path

/-- src/tk.py lines 437-482: the full event trace of one non-cancelled
iteration: `Running` is set (line 437) before the skip test, then the
terminal status, then the progress update (line 452 on the skip path,
line 482 otherwise). -/
def processItem (out_dir : String) (snap : Snapshot) (env : Env)
    (total idx : Nat) (stem : String) : List Event × List String :=
  let r := itemOutcome out_dir snap env idx stem
  ([Event.statusEv idx Status.Running, Event.statusEv idx r.1,
    Event.progressEv idx total], r.2)

/-- src/tk.py lines 432-482: the worker loop over the remaining stems,
`idx` being the 1-based index of the first of them.  At each item boundary
the stop flag is tested first: if set, the item is marked `Cancelled` and
the loop breaks (no progress update, no further events). -/
def workerLoop (out_dir : String) (snap : Snapshot) (env : Env) (total : Nat) :
    List String → Nat → List Event × List String
  | [], _ => ([], [])
  | stem :: rest, idx =>
    if env.stopAt idx then ([Event.statusEv idx Status.Cancelled], [])
    else
      let a := processItem out_dir snap env total idx stem
      let b := workerLoop out_dir snap env total rest (idx + 1)
      (a.1 ++ b.1, a.2 ++ b.2)

/-- `p.name`: the base filename of a path, the part after the last `/`. -/
def baseName (p : String) : String :=
  ⟨(p.data.reverse.takeWhile (fun c => c != '/')).reverse⟩

/-- src/tk.py lines 487-492: adding each produced file to the archive under
its base filename; a failing add is logged and the remaining files are still
attempted.  Returns (archive entry names, logged failed paths), in order. -/
def bundleLoop (zipAddOk : String → Bool) : List String → List String × List String
  | [] => ([], [])
  | p :: rest =>
    let r := bundleLoop zipAddOk rest
    if zipAddOk p then (baseName p :: r.1, r.2) else (r.1, p :: r.2)

/-- The observable result of one `_worker_run` invocation. -/
structure RunResult where
  events : List Event
  produced : List String
  zipCreated : Bool
  archived : List String
  zipFailures : List String
deriving DecidableEq

/-- src/tk.py lines 418-492: one invocation of `_worker_run` over `files`
(given by their stems) in environment `env`.  The snapshot is taken from the
variable values at index 0; `self.zip_outputs.get()` on line 484 is a live
read after the loop, modelled at index `total + 1`. -/
def runWorker (out_dir : String) (files : List String) (env : Env) : RunResult :=
  let total := files.length
  let snap := mkSnapshot (env.varsAt 0) env.tsWorker
  let lr := workerLoop out_dir snap env total files 1
  let doZip := (env.varsAt (total + 1)).zip_outputs && !lr.2.isEmpty
  let bundle := if doZip then bundleLoop env.zipAddOk lr.2 else ([], [])
  { events := lr.1
    produced := lr.2
    zipCreated := doZip
    archived := bundle.1
    zipFailures := bundle.2 }

/-- src/tk.py lines 506-514: `_find_collisions` — for every queued stem, the
planned parquet and csv filenames that already exist, in queue order. -/
def find_collisions (out_dir suffix : String) (write_parquet write_csv : Bool)
    (fsExists : String → Bool) (files : List String) : List String :=
  (files.map (fun stem =>
    let base := stem ++ suffix
    (if write_parquet && fsExists (plannedPath out_dir base ".parquet")
       then [base ++ ".parquet"] else []) ++
    (if write_csv && fsExists (plannedPath out_dir base ".csv")
       then [base ++ ".csv"] else []))).flatten

/-- src/tk.py lines 394-395: the pre-flight collision scan of `_on_convert`,
run when skip-existing is off.  Its `self._name_suffix()` argument performs a
fresh `ts_now()` read (`tsPreflight`), distinct from the worker's later
`_name_suffix()` call. -/
def preflightCollisions (out_dir : String) (files : List String) (env : Env) :
    List String :=
  let v := env.varsAt 0
  find_collisions out_dir (name_suffix v.timestamp_suffix env.tsPreflight)
    v.write_parquet v.write_csv env.fsExists files

/-- src/tk.py lines 322-326: the enqueue step of `_add_files` for one selected
path: appended only when it exists on disk and is not already present. -/
def enqueue (fsExists : String → Bool) (files : List String) (p : String) :
    List String :=
  if fsExists p && !files.contains p then files ++ [p] else files

/-- src/tk.py lines 316-327: `_add_files` over a selection of paths. -/
def addFiles (fsExists : String → Bool) (files : List String)
    (paths : List String) : List String :=
  paths.foldl (enqueue fsExists) files

/-- The ordered status history of item `idx` within an event list. -/
def statusTrace (evs : List Event) (idx : Nat) : List Status :=
  evs.filterMap fun e =>
    match e with
    | Event.statusEv j s => if j = idx then some s else none
    | Event.progressEv _ _ => none

/-- The final status of item `idx`: the last status event for it, `Queued`
when none was emitted. -/
def finalStatus (evs : List Event) (idx : Nat) : Status :=
  (statusTrace evs idx).getLastD Status.Queued

/-- Number of `Cancelled` status events in a trace. -/
def cancelledCount (evs : List Event) : Nat :=
  (evs.filter fun e =>
    match e with
    | Event.statusEv _ Status.Cancelled => true
    | _ => false).length

/-- The item index an event belongs to. -/
def eventIdx : Event → Nat
  | Event.statusEv i _ => i
  | Event.progressEv i _ => i

/-- Baseline variable values: the defaults of src/tk.py lines 120-127 (both
formats on, scaling on, skip-existing on, no timestamp suffix, no zip). -/
def vBase : LiveVars :=
  { write_parquet := true, write_csv := true, scaling := true,
    user_message := "", timestamp_suffix := false, skip_existing := true,
    zip_outputs := false }

/-- All external calls succeed. -/
def oracleOk : ItemOracle :=
  { readOk := true, metaOk := true, parquetOk := true, csvOk := true }

/-- Environment in which only the planned parquet output of stem "sample"
already exists on disk, the stop flag is never set, the configuration is
`vBase` at every moment and every external call succeeds. -/
def envParqExists : Env :=
  { varsAt := fun _ => vBase
    stopAt := fun _ => false
    fsExists := fun p => p == "out/sample.parquet"
    oracle := fun _ => oracleOk
    zipAddOk := fun _ => true
    tsPreflight := "20250101_120000"
    tsWorker := "20250101_120000" }

/-- Like `envParqExists`, but `skip_existing` is switched off while the run is
in flight (from item 1 on); at batch start (index 0) the configuration still
equals `vBase`. -/
def envSkipFlipped : Env :=
  { envParqExists with
      varsAt := fun i => if i = 0 then vBase else { vBase with skip_existing := false } }

/-- Like `envParqExists`, but the user message is edited while the run is in
flight (from item 1 on); at batch start (index 0) the configuration still
equals `vBase`. -/
def envMsgEdited : Env :=
  { envParqExists with
      varsAt := fun i => if i = 0 then vBase else { vBase with user_message := "changed" } }

/-- Empty disk, and the stop flag becomes set from the boundary of item 2 on. -/
def envStop2 : Env :=
  { envParqExists with fsExists := fun _ => false, stopAt := fun i => decide (2 ≤ i) }

/-- The stop flag is already set at the first item boundary. -/
def envStopAll : Env :=
  { envParqExists with stopAt := fun _ => true }

/-- Configuration for the pre-flight timestamp scenario: parquet only,
timestamp suffix on, skip-existing off. -/
def c5vars : LiveVars :=
  { write_parquet := true, write_csv := false, scaling := true,
    user_message := "", timestamp_suffix := true, skip_existing := false,
    zip_outputs := false }

/-- Environment straddling a clock-second boundary: the pre-flight
`ts_now()` read returns 23:59:59 while the worker's read returns 00:00:00 of
the next day, and the file the worker will write
(`out/sample_20250102_000000.parquet`) already exists on disk. -/
def c5env : Env :=
  { varsAt := fun _ => c5vars
    stopAt := fun _ => false
    fsExists := fun p => p == "out/sample_20250102_000000.parquet"
    oracle := fun _ => oracleOk
    zipAddOk := fun _ => true
    tsPreflight := "20250101_235959"
    tsWorker := "20250102_000000" }

/-- Empty disk; the decoder read raises for item 1 and succeeds elsewhere. -/
def envRead1Fails : Env :=
  { envParqExists with
      fsExists := fun _ => false
      oracle := fun i => if i = 1 then { oracleOk with readOk := false } else oracleOk }

/-- Empty disk, zip bundling on, and the archive add fails for `out/a.csv`. -/
def envZipCsvFails : Env :=
  { envParqExists with
      varsAt := fun _ => { vBase with skip_existing := false, zip_outputs := true }
      fsExists := fun _ => false
      zipAddOk := fun p => !(p == "out/a.csv") }

/-- A disk on which exactly the files "a" and "b" exist, for exercising the
queue operations. -/
def fsAB : String → Bool :=
  fun p => p == "a" || p == "b"

/-- Empty disk, zip bundling on, and the csv write raises for every item
while the parquet write succeeds. -/
def envCsvWriteFails : Env :=
  { envParqExists with
      varsAt := fun _ => { vBase with skip_existing := false, zip_outputs := true }
      fsExists := fun _ => false
      oracle := fun _ => { oracleOk with csvOk := false } }

theorem statusTrace_append (l1 l2 : List Event) (i : Nat) :
    statusTrace (l1 ++ l2) i = statusTrace l1 i ++ statusTrace l2 i := by
  simp [statusTrace]

theorem statusTrace_processItem (o : String) (s : Snapshot) (e : Env)
    (t k : Nat) (stem : String) (i : Nat) :
    statusTrace (processItem o s e t k stem).1 i =
      if k = i then [Status.Running, (itemOutcome o s e k stem).1] else [] := by
  by_cases h : k = i <;> simp [processItem, statusTrace, h]

theorem eventIdx_workerLoop (o : String) (s : Snapshot) (e : Env) (t : Nat) :
    ∀ (stems : List String) (idx0 : Nat),
      ∀ ev ∈ (workerLoop o s e t stems idx0).1, idx0 ≤ eventIdx ev := by
  intro stems
  induction stems with
  | nil => intro idx0 ev h; simp [workerLoop] at h
  | cons stem rest ih =>
    intro idx0 ev h
    simp only [workerLoop] at h
    split at h
    · simp at h; subst h; simp [eventIdx]
    · simp only [processItem, List.mem_append, List.mem_cons, List.mem_singleton] at h
      rcases h with (h | h | h | h) | h
      · subst h; simp [eventIdx]
      · subst h; simp [eventIdx]
      · subst h; simp [eventIdx]
      · cases h
      · exact Nat.le_of_succ_le (ih (idx0 + 1) ev h)

theorem statusTrace_nil_of_lt (evs : List Event) (i : Nat)
    (h : ∀ ev ∈ evs, i < eventIdx ev) : statusTrace evs i = [] := by
  induction evs with
  | nil => rfl
  | cons e rest ih =>
    have h1 := h e (List.mem_cons_self e rest)
    have h2 : statusTrace rest i = [] :=
      ih fun ev hv => h ev (List.mem_cons_of_mem _ hv)
    cases e with
    | statusEv j s =>
      have hj : ¬ (j = i) := by simp [eventIdx] at h1; omega
      simp [statusTrace, List.filterMap_cons, hj] at h2 ⊢
      exact h2
    | progressEv j t =>
      simp [statusTrace, List.filterMap_cons] at h2 ⊢
      exact h2

theorem statusTrace_workerLoop_lt (o : String) (s : Snapshot) (e : Env) (t : Nat)
    (stems : List String) (idx0 i : Nat) (h : i < idx0) :
    statusTrace (workerLoop o s e t stems idx0).1 i = [] :=
  statusTrace_nil_of_lt _ _ fun ev hv =>
    Nat.lt_of_lt_of_le h (eventIdx_workerLoop o s e t stems idx0 ev hv)

theorem statusTrace_reached (o : String) (s : Snapshot) (e : Env) (t : Nat) :
    ∀ (stems : List String) (idx0 i : Nat) (stem : String),
      stems[i]? = some stem →
      (∀ j, j ≤ i → e.stopAt (idx0 + j) = false) →
      statusTrace (workerLoop o s e t stems idx0).1 (idx0 + i) =
        [Status.Running, (itemOutcome o s e (idx0 + i) stem).1] := by
  intro stems
  induction stems with
  | nil => intro idx0 i stem h; simp at h
  | cons st rest ih =>
    intro idx0 i stem hget hstop
    have hs0 : e.stopAt idx0 = false := by simpa using hstop 0 (Nat.zero_le _)
    cases i with
    | zero =>
      simp at hget
      subst hget
      simp only [workerLoop, hs0, Bool.false_eq_true, if_false]
      rw [statusTrace_append, statusTrace_processItem]
      have hrec : statusTrace (workerLoop o s e t rest (idx0 + 1)).1 idx0 = [] :=
        statusTrace_workerLoop_lt o s e t rest (idx0 + 1) idx0 (by omega)
      simp [hrec]
    | succ n =>
      simp only [List.getElem?_cons_succ] at hget
      simp only [workerLoop, hs0, Bool.false_eq_true, if_false]
      rw [statusTrace_append, statusTrace_processItem]
      have hne : ¬ (idx0 = idx0 + (n + 1)) := by omega
      have harith : idx0 + (n + 1) = (idx0 + 1) + n := by omega
      have hstop2 : ∀ j, j ≤ n → e.stopAt ((idx0 + 1) + j) = false := by
        intro j hj
        have := hstop (j + 1) (by omega)
        have he : idx0 + (j + 1) = (idx0 + 1) + j := by omega
        rwa [he] at this
      rw [harith]
      rw [if_neg (by omega : ¬ idx0 = idx0 + 1 + n)]
      simpa using ih (idx0 + 1) n stem hget hstop2

theorem itemBody_fst (s : Snapshot) (o : ItemOracle) (pp cp : Option String) :
    (itemBody s o pp cp).1 = Status.Done ∨ (itemBody s o pp cp).1 = Status.Error := by
  unfold itemBody
  repeat' split
  all_goals simp

theorem itemOutcome_fst (o : String) (s : Snapshot) (e : Env) (idx : Nat) (stem : String) :
    (itemOutcome o s e idx stem).1 = Status.Skipped ∨
    (itemOutcome o s e idx stem).1 = Status.Done ∨
    (itemOutcome o s e idx stem).1 = Status.Error := by
  simp only [itemOutcome]
  by_cases hc : skipCheck o s e idx stem = true
  · simp [hc]
  · simp [hc]
    exact Or.inr (itemBody_fst s (e.oracle idx) _ _)

theorem itemOutcome_skipped_iff (o : String) (s : Snapshot) (e : Env) (idx : Nat) (stem : String) :
    ((itemOutcome o s e idx stem).1 = Status.Skipped) ↔ skipCheck o s e idx stem = true := by
  simp only [itemOutcome]
  by_cases hc : skipCheck o s e idx stem = true
  · simp [hc]
  · rcases itemBody_fst s (e.oracle idx)
      (if s.do_parq then some (plannedPath o (stem ++ s.suffix) ".parquet") else none)
      (if s.do_csv then some (plannedPath o (stem ++ s.suffix) ".csv") else none) with h | h <;>
      simp [hc, h]

theorem itemBody_error_iff (s : Snapshot) (o : ItemOracle) (pp cp : Option String) :
    ((itemBody s o pp cp).1 = Status.Error) ↔
      (!o.readOk || (s.user_msg.isSome && !o.metaOk) ||
       (pp.isSome && !o.parquetOk) || (cp.isSome && !o.csvOk)) = true := by
  unfold itemBody
  cases hr : o.readOk <;> cases hm : o.metaOk <;> cases hp : o.parquetOk <;>
    cases hcv : o.csvOk <;> cases pp <;> cases cp <;> cases hu : s.user_msg.isSome <;>
      simp [hr, hm, hp, hcv, hu]

theorem itemOutcome_error_iff (o : String) (s : Snapshot) (e : Env) (idx : Nat) (stem : String)
    (hns : skipCheck o s e idx stem = false) :
    ((itemOutcome o s e idx stem).1 = Status.Error) ↔
      itemRaises s (e.oracle idx) = true := by
  simp only [itemOutcome, hns, Bool.false_eq_true, if_false]
  rw [itemBody_error_iff]
  cases hdp : s.do_parq <;> cases hdc : s.do_csv <;>
    simp [itemRaises, hdp, hdc]

theorem itemOutcome_parquet_then_csv_fails (o : String) (s : Snapshot) (e : Env)
    (idx : Nat) (stem : String)
    (hns : skipCheck o s e idx stem = false)
    (hr : (e.oracle idx).readOk = true) (hm : (e.oracle idx).metaOk = true)
    (hdp : s.do_parq = true) (hpo : (e.oracle idx).parquetOk = true)
    (hdc : s.do_csv = true) (hco : (e.oracle idx).csvOk = false) :
    itemOutcome o s e idx stem =
      (Status.Error, [plannedPath o (stem ++ s.suffix) ".parquet"]) := by
  simp [itemOutcome, itemBody, hns, hr, hm, hdp, hpo, hdc, hco]

theorem finalStatus_append_left (l1 l2 : List Event) (i : Nat)
    (h : statusTrace l1 i = []) : finalStatus (l1 ++ l2) i = finalStatus l2 i := by
  unfold finalStatus
  rw [statusTrace_append, h, List.nil_append]

theorem finalStatus_append_right (l1 l2 : List Event) (i : Nat)
    (h : statusTrace l2 i = []) : finalStatus (l1 ++ l2) i = finalStatus l1 i := by
  unfold finalStatus
  rw [statusTrace_append, h, List.append_nil]

theorem mem_of_statusTrace_ne_nil (evs : List Event) (i : Nat)
    (h : statusTrace evs i ≠ []) : ∃ st, Event.statusEv i st ∈ evs := by
  rcases List.exists_mem_of_ne_nil _ h with ⟨st, hs⟩
  unfold statusTrace at hs
  rcases List.mem_filterMap.1 hs with ⟨ev, hev, hf⟩
  cases ev with
  | statusEv j s2 =>
    by_cases hj : j = i
    · subst hj; exact ⟨s2, hev⟩
    · simp [hj] at hf
  | progressEv j t => simp at hf

theorem statusTrace_shapes (o : String) (s : Snapshot) (e : Env) (t : Nat) :
    ∀ (stems : List String) (idx0 i : Nat),
      statusTrace (workerLoop o s e t stems idx0).1 i = [] ∨
      statusTrace (workerLoop o s e t stems idx0).1 i = [Status.Cancelled] ∨
      statusTrace (workerLoop o s e t stems idx0).1 i = [Status.Running, Status.Done] ∨
      statusTrace (workerLoop o s e t stems idx0).1 i = [Status.Running, Status.Skipped] ∨
      statusTrace (workerLoop o s e t stems idx0).1 i = [Status.Running, Status.Error] := by
  intro stems
  induction stems with
  | nil => intro idx0 i; left; rfl
  | cons st rest ih =>
    intro idx0 i
    cases hstop : e.stopAt idx0 with
    | true =>
      by_cases hj : idx0 = i
      · subst hj
        right; left
        simp [workerLoop, hstop, statusTrace]
      · left
        simp [workerLoop, hstop, statusTrace, hj]
    | false =>
      simp only [workerLoop, hstop, Bool.false_eq_true, if_false]
      rw [statusTrace_append, statusTrace_processItem]
      by_cases hj : idx0 = i
      · subst hj
        have hrec : statusTrace (workerLoop o s e t rest (idx0 + 1)).1 idx0 = [] :=
          statusTrace_workerLoop_lt o s e t rest (idx0 + 1) idx0 (by omega)
        rcases itemOutcome_fst o s e idx0 st with h | h | h
        · right; right; right; left; simp [hrec, h]
        · right; right; left; simp [hrec, h]
        · right; right; right; right; simp [hrec, h]
      · rw [if_neg hj, List.nil_append]
        exact ih (idx0 + 1) i

theorem cancelledCount_append (l1 l2 : List Event) :
    cancelledCount (l1 ++ l2) = cancelledCount l1 + cancelledCount l2 := by
  simp [cancelledCount]

theorem cancelledCount_processItem (o : String) (s : Snapshot) (e : Env)
    (t k : Nat) (stem : String) :
    cancelledCount (processItem o s e t k stem).1 = 0 := by
  rcases itemOutcome_fst o s e k stem with h | h | h <;>
    simp [cancelledCount, processItem, h]

theorem cancelledCount_workerLoop (o : String) (s : Snapshot) (e : Env) (t : Nat) :
    ∀ (stems : List String) (idx0 : Nat),
      cancelledCount (workerLoop o s e t stems idx0).1 ≤ 1 := by
  intro stems
  induction stems with
  | nil => intro idx0; simp [workerLoop, cancelledCount]
  | cons st rest ih =>
    intro idx0
    cases hstop : e.stopAt idx0 with
    | true => simp [workerLoop, hstop, cancelledCount]
    | false =>
      simp only [workerLoop, hstop, Bool.false_eq_true, if_false]
      rw [cancelledCount_append, cancelledCount_processItem]
      simpa using ih (idx0 + 1)

theorem cancel_structure (o : String) (s : Snapshot) (e : Env) (t : Nat) :
    ∀ (stems : List String) (idx0 i : Nat),
      statusTrace (workerLoop o s e t stems idx0).1 i = [Status.Cancelled] →
      (workerLoop o s e t stems idx0).1.getLast? = some (Event.statusEv i Status.Cancelled) ∧
      (∀ j, i < j → statusTrace (workerLoop o s e t stems idx0).1 j = []) := by
  intro stems
  induction stems with
  | nil => intro idx0 i h; simp [workerLoop, statusTrace] at h
  | cons st rest ih =>
    intro idx0 i h
    cases hstop : e.stopAt idx0 with
    | true =>
      by_cases hj : idx0 = i
      · subst hj
        constructor
        · simp [workerLoop, hstop]
        · intro j hj2
          have hne : ¬ (idx0 = j) := by omega
          simp [workerLoop, hstop, statusTrace, hne]
      · simp [workerLoop, hstop, statusTrace, hj] at h
    | false =>
      rw [show workerLoop o s e t (st :: rest) idx0 =
            (let a := processItem o s e t idx0 st
             let b := workerLoop o s e t rest (idx0 + 1)
             (a.1 ++ b.1, a.2 ++ b.2)) by
            simp [workerLoop, hstop]] at h ⊢
      simp only [] at h ⊢
      rw [statusTrace_append, statusTrace_processItem] at h
      have hji : ¬ (idx0 = i) := by
        intro hji
        subst hji
        rw [if_pos rfl] at h
        have hrec : statusTrace (workerLoop o s e t rest (idx0 + 1)).1 idx0 = [] :=
          statusTrace_workerLoop_lt o s e t rest (idx0 + 1) idx0 (by omega)
        rw [hrec] at h
        simp at h
      rw [if_neg hji, List.nil_append] at h
      rcases ih (idx0 + 1) i h with ⟨hlast, hafter⟩
      have hrecne : (workerLoop o s e t rest (idx0 + 1)).1 ≠ [] := by
        intro hnil
        rw [hnil] at hlast
        simp at hlast
      have hige : idx0 + 1 ≤ i := by
        have hne2 : statusTrace (workerLoop o s e t rest (idx0 + 1)).1 i ≠ [] := by
          rw [h]; simp
        rcases mem_of_statusTrace_ne_nil _ _ hne2 with ⟨st2, hmem⟩
        have := eventIdx_workerLoop o s e t rest (idx0 + 1) _ hmem
        simpa [eventIdx] using this
      constructor
      · rw [List.getLast?_append_of_ne_nil _ hrecne]
        exact hlast
      · intro j hj2
        rw [statusTrace_append, statusTrace_processItem]
        rw [if_neg (by omega : ¬ (idx0 = j)), List.nil_append]
        exact hafter j hj2

theorem stop_marks_cancel (o : String) (s : Snapshot) (e : Env) (t : Nat) :
    ∀ (stems : List String) (idx0 k : Nat),
      idx0 ≤ k → k < idx0 + stems.length → e.stopAt k = true →
      (∀ j, idx0 ≤ j → j < k → e.stopAt j = false) →
      statusTrace (workerLoop o s e t stems idx0).1 k = [Status.Cancelled] := by
  intro stems
  induction stems with
  | nil => intro idx0 k h1 h2 h3 h4; simp at h2; omega
  | cons st rest ih =>
    intro idx0 k h1 h2 h3 h4
    by_cases hk : k = idx0
    · subst hk
      simp [workerLoop, h3, statusTrace]
    · have hlt : idx0 < k := by omega
      have hs0 : e.stopAt idx0 = false := h4 idx0 (Nat.le_refl _) hlt
      simp only [workerLoop, hs0, Bool.false_eq_true, if_false]
      rw [statusTrace_append, statusTrace_processItem]
      rw [if_neg (by omega : ¬ (idx0 = k)), List.nil_append]
      refine ih (idx0 + 1) k (by omega) (by simp at h2; omega) h3 ?_
      intro j hj1 hj2
      exact h4 j (by omega) hj2

theorem progress_of_terminal (o : String) (s : Snapshot) (e : Env) (t : Nat) :
    ∀ (stems : List String) (idx0 i : Nat),
      (finalStatus (workerLoop o s e t stems idx0).1 i = Status.Done ∨
       finalStatus (workerLoop o s e t stems idx0).1 i = Status.Skipped ∨
       finalStatus (workerLoop o s e t stems idx0).1 i = Status.Error) →
      Event.progressEv i t ∈ (workerLoop o s e t stems idx0).1 := by
  intro stems
  induction stems with
  | nil => intro idx0 i h; simp [workerLoop, finalStatus, statusTrace] at h
  | cons st rest ih =>
    intro idx0 i h
    cases hstop : e.stopAt idx0 with
    | true =>
      rw [show workerLoop o s e t (st :: rest) idx0 =
            ([Event.statusEv idx0 Status.Cancelled], []) by simp [workerLoop, hstop]] at h
      by_cases hj : idx0 = i <;> simp [finalStatus, statusTrace, hj] at h
    | false =>
      simp only [workerLoop, hstop, Bool.false_eq_true, if_false] at h ⊢
      by_cases hj : idx0 = i
      · subst hj
        refine List.mem_append.2 (Or.inl ?_)
        simp [processItem]
      · rw [finalStatus_append_left] at h
        · exact List.mem_append.2 (Or.inr (ih (idx0 + 1) i h))
        · rw [statusTrace_processItem, if_neg hj]

theorem produced_reached (o : String) (s : Snapshot) (e : Env) (t : Nat) :
    ∀ (stems : List String) (idx0 i : Nat) (stem : String),
      stems[i]? = some stem →
      (∀ j, j ≤ i → e.stopAt (idx0 + j) = false) →
      ∀ p ∈ (itemOutcome o s e (idx0 + i) stem).2,
        p ∈ (workerLoop o s e t stems idx0).2 := by
  intro stems
  induction stems with
  | nil => intro idx0 i stem h; simp at h
  | cons st rest ih =>
    intro idx0 i stem hget hstop p hp
    have hs0 : e.stopAt idx0 = false := by simpa using hstop 0 (Nat.zero_le _)
    cases i with
    | zero =>
      simp at hget
      subst hget
      simp only [workerLoop, hs0, Bool.false_eq_true, if_false]
      refine List.mem_append.2 (Or.inl ?_)
      simpa [processItem] using hp
    | succ n =>
      simp only [List.getElem?_cons_succ] at hget
      simp only [workerLoop, hs0, Bool.false_eq_true, if_false]
      refine List.mem_append.2 (Or.inr ?_)
      have harith : idx0 + (n + 1) = (idx0 + 1) + n := by omega
      have hstop2 : ∀ j, j ≤ n → e.stopAt ((idx0 + 1) + j) = false := by
        intro j hj
        have hx := hstop (j + 1) (by omega)
        have he2 : idx0 + (j + 1) = (idx0 + 1) + j := by omega
        rwa [he2] at hx
      exact ih (idx0 + 1) n stem hget hstop2 p (by rwa [harith] at hp)

theorem bundleLoop_mem_ok (ok : String → Bool) :
    ∀ (l : List String) (p : String), p ∈ l → ok p = true →
      baseName p ∈ (bundleLoop ok l).1 := by
  intro l
  induction l with
  | nil => intro p h; simp at h
  | cons q rest ih =>
    intro p h hok
    rcases List.mem_cons.1 h with h | h
    · subst h; simp [bundleLoop, hok]
    · have hr := ih p h hok
      cases hq : ok q
      · simpa [bundleLoop, hq] using hr
      · simp only [bundleLoop, hq, if_true]
        exact List.mem_cons_of_mem _ hr

theorem bundleLoop_mem_fail (ok : String → Bool) :
    ∀ (l : List String) (p : String), p ∈ l → ok p = false →
      p ∈ (bundleLoop ok l).2 := by
  intro l
  induction l with
  | nil => intro p h; simp at h
  | cons q rest ih =>
    intro p h hok
    rcases List.mem_cons.1 h with h | h
    · subst h; simp [bundleLoop, hok]
    · have hr := ih p h hok
      cases hq : ok q
      · simp only [bundleLoop, hq, Bool.false_eq_true, if_false]
        exact List.mem_cons_of_mem _ hr
      · simpa [bundleLoop, hq] using hr

theorem itemOutcome_congr (o : String) (s : Snapshot) (e1 e2 : Env) (idx : Nat)
    (stem : String)
    (hv : (e1.varsAt idx).skip_existing = (e2.varsAt idx).skip_existing)
    (hfs : e1.fsExists = e2.fsExists) (ho : e1.oracle = e2.oracle) :
    itemOutcome o s e1 idx stem = itemOutcome o s e2 idx stem := by
  unfold itemOutcome skipCheck
  rw [hv, hfs, ho]

theorem workerLoop_congr (o : String) (s : Snapshot) (e1 e2 : Env) (t : Nat)
    (hv : ∀ i, (e1.varsAt i).skip_existing = (e2.varsAt i).skip_existing)
    (hstop : e1.stopAt = e2.stopAt)
    (hfs : e1.fsExists = e2.fsExists) (ho : e1.oracle = e2.oracle) :
    ∀ (stems : List String) (idx0 : Nat),
      workerLoop o s e1 t stems idx0 = workerLoop o s e2 t stems idx0 := by
  intro stems
  induction stems with
  | nil => intro idx0; rfl
  | cons st rest ih =>
    intro idx0
    have hpi : processItem o s e1 t idx0 st = processItem o s e2 t idx0 st := by
      unfold processItem
      rw [itemOutcome_congr o s e1 e2 idx0 st (hv idx0) hfs ho]
    simp only [workerLoop, hstop, hpi, ih (idx0 + 1)]

theorem runWorker_events (o : String) (files : List String) (e : Env) :
    (runWorker o files e).events =
      (workerLoop o (activeSnap e) e files.length files 1).1 := rfl

theorem runWorker_produced (o : String) (files : List String) (e : Env) :
    (runWorker o files e).produced =
      (workerLoop o (activeSnap e) e files.length files 1).2 := rfl

theorem pathExists_if (fs : String → Bool) (b : Bool) (x : String) :
    pathExists fs (if b then some x else none) = (b && fs x) := by
  cases b <;> simp [pathExists]

theorem enqueue_nodup (fs : String → Bool) (q : List String) (p : String)
    (hq : q.Nodup) : (enqueue fs q p).Nodup := by
  unfold enqueue
  split
  · rename_i h
    have hmem : p ∉ q := by
      intro hm
      have : q.contains p = true := List.elem_iff.2 hm
      simp [this] at h
      exact h.2 hm
    simp [List.nodup_append, hq, hmem]
  · exact hq

theorem enqueue_extends (fs : String → Bool) (q : List String) (p : String) :
    enqueue fs q p = q ∨ enqueue fs q p = q ++ [p] := by
  unfold enqueue
  split
  · right; rfl
  · left; rfl

theorem addFiles_nodup_extends (fs : String → Bool) :
    ∀ (ps : List String) (q : List String), q.Nodup →
      (addFiles fs q ps).Nodup ∧ ∃ tail, addFiles fs q ps = q ++ tail := by
  intro ps
  induction ps with
  | nil => intro q hq; exact ⟨hq, [], by simp [addFiles]⟩
  | cons p rest ih =>
    intro q hq
    have hstep : addFiles fs q (p :: rest) = addFiles fs (enqueue fs q p) rest := rfl
    rcases ih (enqueue fs q p) (enqueue_nodup fs q p hq) with ⟨hnd, tail, htail⟩
    refine ⟨by rwa [hstep], ?_⟩
    rcases enqueue_extends fs q p with he | he
    · exact ⟨tail, by rw [hstep, htail, he]⟩
    · exact ⟨[p] ++ tail, by rw [hstep, htail, he, List.append_assoc]⟩

/-- Claim C1 is false as stated: in `envParqExists` both output formats are
configured, skip-existing is active, the planned csv output `out/sample.csv`
does not exist on disk (only the parquet output exists), and yet item 1 is
marked Skipped instead of being processed — the code skips as soon as ANY
configured output path exists, not only when all of them do. -/
theorem C1_counterexample :
    (envParqExists.varsAt 1).skip_existing = true ∧
    (envParqExists.varsAt 0).write_csv = true ∧
    envParqExists.fsExists "out/sample.csv" = false ∧
    (runWorker "out" ["sample"] envParqExists).events =
      [Event.statusEv 1 Status.Running, Event.statusEv 1 Status.Skipped,
       Event.progressEv 1 1] :=
  ⟨rfl, rfl, by decide, by decide⟩

/-- Claim C1, amended: when skip-existing is read as true at an item that the
worker reaches, the item is marked Skipped exactly when AT LEAST ONE of its
configured output paths already exists; only when none of them exists is the
item processed normally. -/
theorem C1_skip_iff_any_exists (out : String) (files : List String) (env : Env)
    (i : Nat) (stem : String)
    (hstem : files[i - 1]? = some stem) (hi : 1 ≤ i)
    (hnostop : ∀ j, 1 ≤ j → j ≤ i → env.stopAt j = false)
    (hskip : (env.varsAt i).skip_existing = true) :
    (finalStatus (runWorker out files env).events i = Status.Skipped) ↔
      (((activeSnap env).do_parq &&
          env.fsExists (plannedPath out (stem ++ (activeSnap env).suffix) ".parquet")) ||
       ((activeSnap env).do_csv &&
          env.fsExists (plannedPath out (stem ++ (activeSnap env).suffix) ".csv"))) = true := by
  have h1 : statusTrace (runWorker out files env).events i =
      [Status.Running, (itemOutcome out (activeSnap env) env i stem).1] := by
    rw [runWorker_events]
    have hx := statusTrace_reached out (activeSnap env) env files.length files 1
      (i - 1) stem hstem (fun j hj => hnostop (1 + j) (by omega) (by omega))
    rwa [show 1 + (i - 1) = i from by omega] at hx
  have h2 : finalStatus (runWorker out files env).events i =
      (itemOutcome out (activeSnap env) env i stem).1 := by
    unfold finalStatus
    rw [h1]
    rfl
  rw [h2, itemOutcome_skipped_iff]
  unfold skipCheck
  rw [hskip, pathExists_if, pathExists_if]
  simp

/-- Witness for `C1_skip_iff_any_exists` at the concrete run of
`envParqExists` on the single stem "sample". -/
theorem C1_witness :
    (finalStatus (runWorker "out" ["sample"] envParqExists).events 1 = Status.Skipped) ↔
      (((activeSnap envParqExists).do_parq &&
          envParqExists.fsExists
            (plannedPath "out" ("sample" ++ (activeSnap envParqExists).suffix) ".parquet")) ||
       ((activeSnap envParqExists).do_csv &&
          envParqExists.fsExists
            (plannedPath "out" ("sample" ++ (activeSnap envParqExists).suffix) ".csv"))) = true :=
  C1_skip_iff_any_exists "out" ["sample"] envParqExists 1 "sample" (by decide)
    (by decide) (fun j h1 h2 => rfl) rfl

/-- Claim C2 is false as stated: `envParqExists` and `envSkipFlipped` agree on
the whole configuration at batch start (index 0) and on every other component
of the environment, and differ only in the value of `skip_existing` read while
the run is in flight — yet the two runs produce different results, because
`self.skip_existing.get()` (src/tk.py line 443) is a live read, not part of
the snapshot. -/
theorem C2_counterexample :
    envParqExists.varsAt 0 = envSkipFlipped.varsAt 0 ∧
    envParqExists.stopAt = envSkipFlipped.stopAt ∧
    envParqExists.fsExists = envSkipFlipped.fsExists ∧
    envParqExists.oracle = envSkipFlipped.oracle ∧
    envParqExists.zipAddOk = envSkipFlipped.zipAddOk ∧
    envParqExists.tsWorker = envSkipFlipped.tsWorker ∧
    runWorker "out" ["sample"] envParqExists ≠ runWorker "out" ["sample"] envSkipFlipped :=
  ⟨rfl, rfl, rfl, rfl, rfl, rfl, by decide⟩

/-- Claim C2, amended: the output formats, scaling flag, user message and
timestamp suffix are read once at batch start, so mid-run edits to them have
no effect; but `skip_existing` is re-read at each item and `zip_outputs` is
re-read after the loop, so the run result depends on the live configuration
only through the batch-start values, the per-item `skip_existing` reads and
the final `zip_outputs` read. -/
theorem C2_snapshot_partial (out : String) (files : List String) (e1 e2 : Env)
    (h0 : e1.varsAt 0 = e2.varsAt 0)
    (hskip : ∀ i, (e1.varsAt i).skip_existing = (e2.varsAt i).skip_existing)
    (hzip : (e1.varsAt (files.length + 1)).zip_outputs =
            (e2.varsAt (files.length + 1)).zip_outputs)
    (hstop : e1.stopAt = e2.stopAt)
    (hfs : e1.fsExists = e2.fsExists)
    (ho : e1.oracle = e2.oracle)
    (hz : e1.zipAddOk = e2.zipAddOk)
    (ht : e1.tsWorker = e2.tsWorker) :
    runWorker out files e1 = runWorker out files e2 := by
  simp only [runWorker]
  rw [h0, ht, hzip, hz,
    workerLoop_congr out (mkSnapshot (e2.varsAt 0) e2.tsWorker) e1 e2
      files.length hskip hstop hfs ho files 1]

/-- Witness for `C2_snapshot_partial`: editing the user message while the run
is in flight (`envMsgEdited`) leaves the run result unchanged. -/
theorem C2_witness :
    envParqExists.varsAt 0 = envMsgEdited.varsAt 0 ∧
    runWorker "out" ["sample"] envParqExists = runWorker "out" ["sample"] envMsgEdited :=
  ⟨rfl, C2_snapshot_partial "out" ["sample"] envParqExists envMsgEdited rfl
    (fun i => by cases i <;> rfl) rfl rfl rfl rfl rfl rfl⟩

theorem trace_of_finalCancelled (o : String) (s : Snapshot) (e : Env) (t : Nat)
    (stems : List String) (idx0 i : Nat)
    (h : finalStatus (workerLoop o s e t stems idx0).1 i = Status.Cancelled) :
    statusTrace (workerLoop o s e t stems idx0).1 i = [Status.Cancelled] := by
  unfold finalStatus at h
  rcases statusTrace_shapes o s e t stems idx0 i with h1 | h1 | h1 | h1 | h1
  · rw [h1] at h; exact absurd h (by decide)
  · exact h1
  · rw [h1] at h; exact absurd h (by decide)
  · rw [h1] at h; exact absurd h (by decide)
  · rw [h1] at h; exact absurd h (by decide)

/-- Claim C3: the cancellation flag is observed only at item boundaries: at
most one item per run is marked Cancelled; a cancelled item's status history
is exactly [Cancelled] (it was never Running); the Cancelled event is the last
event of the run (the loop terminates immediately); every item after the
cancelled one keeps status Queued; and the item at the first boundary where
the flag is observed set is the one marked Cancelled. -/
theorem C3_cancellation (out : String) (files : List String) (env : Env) :
    cancelledCount (runWorker out files env).events ≤ 1 ∧
    (∀ i, finalStatus (runWorker out files env).events i = Status.Cancelled →
      statusTrace (runWorker out files env).events i = [Status.Cancelled] ∧
      (runWorker out files env).events.getLast? =
        some (Event.statusEv i Status.Cancelled) ∧
      ∀ j, i < j → finalStatus (runWorker out files env).events j = Status.Queued) ∧
    (∀ k, 1 ≤ k → k ≤ files.length → env.stopAt k = true →
      (∀ j, 1 ≤ j → j < k → env.stopAt j = false) →
      finalStatus (runWorker out files env).events k = Status.Cancelled) := by
  refine ⟨?_, ?_, ?_⟩
  · rw [runWorker_events]
    exact cancelledCount_workerLoop out (activeSnap env) env files.length files 1
  · intro i h
    have htr : statusTrace (runWorker out files env).events i = [Status.Cancelled] := by
      rw [runWorker_events] at h ⊢
      exact trace_of_finalCancelled out (activeSnap env) env files.length files 1 i h
    refine ⟨htr, ?_, ?_⟩
    · rw [runWorker_events] at htr ⊢
      exact (cancel_structure out (activeSnap env) env files.length files 1 i htr).1
    · intro j hj
      have hnil : statusTrace (runWorker out files env).events j = [] := by
        rw [runWorker_events] at htr ⊢
        exact (cancel_structure out (activeSnap env) env files.length files 1 i htr).2 j hj
      unfold finalStatus
      rw [hnil]
      rfl
  · intro k h1 h2 h3 h4
    have htr : statusTrace (runWorker out files env).events k = [Status.Cancelled] := by
      rw [runWorker_events]
      exact stop_marks_cancel out (activeSnap env) env files.length files 1 k h1
        (by omega) h3 (fun j hj1 hj2 => h4 j hj1 hj2)
    unfold finalStatus
    rw [htr]
    rfl

/-- Witness for `C3_cancellation`: with the stop flag set from the boundary
of item 2 on, item 2 of three is Cancelled and item 3 stays Queued. -/
theorem C3_witness :
    finalStatus (runWorker "out" ["a", "b", "c"] envStop2).events 2 = Status.Cancelled ∧
    finalStatus (runWorker "out" ["a", "b", "c"] envStop2).events 3 = Status.Queued := by
  have h := C3_cancellation "out" ["a", "b", "c"] envStop2
  have h2 : finalStatus (runWorker "out" ["a", "b", "c"] envStop2).events 2 =
      Status.Cancelled := by
    refine h.2.2 2 (by decide) (by decide) (by decide) ?_
    intro j hj1 hj2
    have hj : j = 1 := by omega
    subst hj
    decide
  exact ⟨h2, (h.2.1 2 h2).2.2 3 (by decide)⟩

/-- Claim C4 is false as stated: when the stop flag is already set at the
first boundary, item 1 reaches the terminal status Cancelled but the run
emits no progress event at all — the loop breaks before `_set_progress`
(src/tk.py line 435 breaks before line 482). -/
theorem C4_counterexample :
    finalStatus (runWorker "out" ["a"] envStopAll).events 1 = Status.Cancelled ∧
    (runWorker "out" ["a"] envStopAll).events = [Event.statusEv 1 Status.Cancelled] ∧
    (∀ ev ∈ (runWorker "out" ["a"] envStopAll).events,
      ∀ total, ev ≠ Event.progressEv 1 total) := by
  refine ⟨by decide, by decide, ?_⟩
  intro ev hev total
  have hevs : (runWorker "out" ["a"] envStopAll).events =
      [Event.statusEv 1 Status.Cancelled] := by decide
  rw [hevs] at hev
  have hv : ev = Event.statusEv 1 Status.Cancelled := List.mem_singleton.1 hev
  subst hv
  simp

/-- Claim C4, amended: after every item whose terminal status is Done,
Skipped or Error, a progress event `(index, total)` is emitted; a Cancelled
item gets none. -/
theorem C4_progress_after_terminal (out : String) (files : List String) (env : Env)
    (i : Nat)
    (h : finalStatus (runWorker out files env).events i = Status.Done ∨
         finalStatus (runWorker out files env).events i = Status.Skipped ∨
         finalStatus (runWorker out files env).events i = Status.Error) :
    Event.progressEv i files.length ∈ (runWorker out files env).events := by
  rw [runWorker_events] at h ⊢
  exact progress_of_terminal out (activeSnap env) env files.length files 1 i h

/-- Witness for `C4_progress_after_terminal` at the skipped item of the
`envParqExists` run. -/
theorem C4_witness :
    Event.progressEv 1 1 ∈ (runWorker "out" ["sample"] envParqExists).events :=
  C4_progress_after_terminal "out" ["sample"] envParqExists 1
    (Or.inr (Or.inl (by decide)))

/-- Claim C5 names a real divergence in the code (the specification flags it
and mandates the fix): `_name_suffix()` calls `ts_now()` afresh at each call
site, so the pre-flight collision scan of `_on_convert` and the worker's
filename computation can observe different timestamps.  In `c5env` the two
reads straddle a second boundary: the collision scan reports no collision,
yet the worker then writes to `out/sample_20250102_000000.parquet`, a path
that already exists on disk. -/
theorem C5_preflight_suffix_mismatch :
    (c5env.varsAt 0).timestamp_suffix = true ∧
    name_suffix (c5env.varsAt 0).timestamp_suffix c5env.tsPreflight ≠
      name_suffix (c5env.varsAt 0).timestamp_suffix c5env.tsWorker ∧
    preflightCollisions "out" ["sample"] c5env = [] ∧
    c5env.fsExists "out/sample_20250102_000000.parquet" = true ∧
    (runWorker "out" ["sample"] c5env).produced =
      ["out/sample_20250102_000000.parquet"] ∧
    finalStatus (runWorker "out" ["sample"] c5env).events 1 = Status.Done :=
  ⟨rfl, by decide, by decide, by decide, by decide, by decide⟩

/-- Claim C6 is false as stated: an item that ends Skipped is marked Running
first (src/tk.py line 437 runs before the skip test on line 443), so its
status history is Queued → Running → Skipped, not Queued → Skipped. -/
theorem C6_counterexample :
    finalStatus (runWorker "out" ["sample"] envParqExists).events 1 = Status.Skipped ∧
    statusTrace (runWorker "out" ["sample"] envParqExists).events 1 =
      [Status.Running, Status.Skipped] :=
  ⟨by decide, by decide⟩

/-- Claim C6, amended: every item's complete status history in a run is one
of [], [Cancelled], [Running, Done], [Running, Skipped], [Running, Error] —
i.e. the transitions are Queued→Cancelled, Queued→Running, Running→Done,
Running→Skipped, Running→Error, and a status is terminal once in
{Done, Skipped, Error, Cancelled} (nothing follows it in the history). -/
theorem C6_transitions (out : String) (files : List String) (env : Env) (i : Nat) :
    statusTrace (runWorker out files env).events i = [] ∨
    statusTrace (runWorker out files env).events i = [Status.Cancelled] ∨
    statusTrace (runWorker out files env).events i = [Status.Running, Status.Done] ∨
    statusTrace (runWorker out files env).events i = [Status.Running, Status.Skipped] ∨
    statusTrace (runWorker out files env).events i = [Status.Running, Status.Error] := by
  rw [runWorker_events]
  exact statusTrace_shapes out (activeSnap env) env files.length files 1 i

/-- Claim C7: if any decoder call or write raises while processing item `i`
(and the item is not skipped), item `i` is marked Error, and item `i + 1` is
still attempted (it is marked Running and processed) — a single item's
failure never aborts the batch. -/
theorem C7_error_isolation (out : String) (files : List String) (env : Env)
    (i : Nat) (stem stem2 : String)
    (hstem : files[i - 1]? = some stem) (hstem2 : files[i]? = some stem2)
    (hi : 1 ≤ i)
    (hnostop : ∀ j, 1 ≤ j → j ≤ i + 1 → env.stopAt j = false)
    (hnoskip : skipCheck out (activeSnap env) env i stem = false)
    (hraise : itemRaises (activeSnap env) (env.oracle i) = true) :
    finalStatus (runWorker out files env).events i = Status.Error ∧
    statusTrace (runWorker out files env).events (i + 1) =
      [Status.Running, (itemOutcome out (activeSnap env) env (i + 1) stem2).1] := by
  constructor
  · have h1 : statusTrace (runWorker out files env).events i =
        [Status.Running, (itemOutcome out (activeSnap env) env i stem).1] := by
      rw [runWorker_events]
      have hx := statusTrace_reached out (activeSnap env) env files.length files 1
        (i - 1) stem hstem (fun j hj => hnostop (1 + j) (by omega) (by omega))
      rwa [show 1 + (i - 1) = i from by omega] at hx
    have herr : (itemOutcome out (activeSnap env) env i stem).1 = Status.Error :=
      (itemOutcome_error_iff out (activeSnap env) env i stem hnoskip).2 hraise
    unfold finalStatus
    rw [h1, herr]
    rfl
  · rw [runWorker_events]
    have hx := statusTrace_reached out (activeSnap env) env files.length files 1
      i stem2 hstem2 (fun j hj => hnostop (1 + j) (by omega) (by omega))
    rwa [show 1 + i = i + 1 from by omega] at hx

/-- Witness for `C7_error_isolation`: the decoder read fails for item 1 of
`envRead1Fails`, item 1 ends Error and item 2 is still processed. -/
theorem C7_witness :
    finalStatus (runWorker "out" ["a", "b"] envRead1Fails).events 1 = Status.Error ∧
    statusTrace (runWorker "out" ["a", "b"] envRead1Fails).events 2 =
      [Status.Running,
       (itemOutcome "out" (activeSnap envRead1Fails) envRead1Fails 2 "b").1] :=
  C7_error_isolation "out" ["a", "b"] envRead1Fails 1 "a" "b" (by decide) (by decide)
    (by decide) (fun j hj1 hj2 => rfl) (by decide) (by decide)

/-- Claim C8: any sequence of enqueue calls preserves insertion order (the
previous queue is a prefix of the new one) and keeps the queue free of
duplicate paths; a single enqueue is a no-op when the path does not exist on
disk or an equal path is already present, and appends the path at the end
otherwise. -/
theorem C8_enqueue (fs : String → Bool) (q : List String) (ps : List String)
    (hq : q.Nodup) :
    (addFiles fs q ps).Nodup ∧
    (∃ tail, addFiles fs q ps = q ++ tail) ∧
    (∀ p, (fs p = false ∨ p ∈ q) → enqueue fs q p = q) ∧
    (∀ p, fs p = true → p ∉ q → enqueue fs q p = q ++ [p]) := by
  rcases addFiles_nodup_extends fs ps q hq with ⟨hnd, tail, htail⟩
  refine ⟨hnd, ⟨tail, htail⟩, ?_, ?_⟩
  · intro p hp
    unfold enqueue
    rcases hp with hp | hp
    · simp [hp]
    · have hc : q.contains p = true := List.elem_iff.2 hp
      simp [hc]
      exact fun _ => hp
  · intro p hfs hmem
    unfold enqueue
    have hc : q.contains p = false := by
      cases hcc : q.contains p
      · rfl
      · exact absurd (List.elem_iff.1 hcc) hmem
    simp [hfs, hc]
    exact hmem

/-- Witness for `C8_enqueue` on the concrete disk `fsAB` and a selection
with a duplicate and a non-existing path. -/
theorem C8_witness :
    (addFiles fsAB [] ["a", "x", "a", "b"]).Nodup ∧
    (∃ tail, addFiles fsAB [] ["a", "x", "a", "b"] = [] ++ tail) ∧
    (∀ p, (fsAB p = false ∨ p ∈ ([] : List String)) → enqueue fsAB [] p = []) ∧
    (∀ p, fsAB p = true → p ∉ ([] : List String) → enqueue fsAB [] p = [] ++ [p]) :=
  C8_enqueue fsAB [] ["a", "x", "a", "b"] (by decide)

theorem runWorker_zipCreated (o : String) (files : List String) (e : Env) :
    (runWorker o files e).zipCreated =
      ((e.varsAt (files.length + 1)).zip_outputs &&
        !(runWorker o files e).produced.isEmpty) := rfl

theorem runWorker_bundle (o : String) (files : List String) (e : Env) :
    ((runWorker o files e).archived, (runWorker o files e).zipFailures) =
      (if (runWorker o files e).zipCreated then
        bundleLoop e.zipAddOk (runWorker o files e).produced else ([], [])) := rfl

/-- Claim C9: the archive step runs exactly when zip-outputs (as read after
the loop) is enabled and the produced-files list is non-empty; every produced
file whose add succeeds appears in the archive under its base filename, and a
failing add is logged (recorded in `zipFailures`) without preventing the
remaining files from being added or aborting the batch. -/
theorem C9_bundle (out : String) (files : List String) (env : Env) :
    ((runWorker out files env).zipCreated =
      ((env.varsAt (files.length + 1)).zip_outputs &&
        !(runWorker out files env).produced.isEmpty)) ∧
    ((runWorker out files env).zipCreated = false →
      (runWorker out files env).archived = [] ∧
      (runWorker out files env).zipFailures = []) ∧
    ((runWorker out files env).zipCreated = true →
      ∀ p ∈ (runWorker out files env).produced,
        (env.zipAddOk p = true →
          baseName p ∈ (runWorker out files env).archived) ∧
        (env.zipAddOk p = false →
          p ∈ (runWorker out files env).zipFailures)) := by
  refine ⟨runWorker_zipCreated out files env, ?_, ?_⟩
  · intro h
    have hb := runWorker_bundle out files env
    rw [h] at hb
    simp at hb
    exact hb
  · intro h p hp
    have hb := runWorker_bundle out files env
    rw [h] at hb
    simp at hb
    have hb1 : (runWorker out files env).archived =
        (bundleLoop env.zipAddOk (runWorker out files env).produced).1 :=
      congrArg Prod.fst hb
    have hb2 : (runWorker out files env).zipFailures =
        (bundleLoop env.zipAddOk (runWorker out files env).produced).2 :=
      congrArg Prod.snd hb
    constructor
    · intro hok
      rw [hb1]
      exact bundleLoop_mem_ok env.zipAddOk _ p hp hok
    · intro hfail
      rw [hb2]
      exact bundleLoop_mem_fail env.zipAddOk _ p hp hfail

/-- Witness for `C9_bundle`: in `envZipCsvFails` the csv add fails and is
logged while the parquet file is still archived. -/
theorem C9_witness :
    baseName "out/a.parquet" ∈ (runWorker "out" ["a"] envZipCsvFails).archived ∧
    "out/a.csv" ∈ (runWorker "out" ["a"] envZipCsvFails).zipFailures := by
  have h := C9_bundle "out" ["a"] envZipCsvFails
  exact ⟨(h.2.2 (by decide) "out/a.parquet" (by decide)).1 (by decide),
         (h.2.2 (by decide) "out/a.csv" (by decide)).2 (by decide)⟩

/-- Claim C10: when the parquet write of item `i` succeeds and the following
csv write raises, the item is marked Error, yet the parquet path stays in the
run-level produced list and, when bundling is enabled and its add succeeds,
is included in the ZIP archive — produced files are never rolled back. -/
theorem C10_no_rollback (out : String) (files : List String) (env : Env)
    (i : Nat) (stem : String)
    (hstem : files[i - 1]? = some stem) (hi : 1 ≤ i)
    (hnostop : ∀ j, 1 ≤ j → j ≤ i → env.stopAt j = false)
    (hnoskip : skipCheck out (activeSnap env) env i stem = false)
    (hread : (env.oracle i).readOk = true) (hmeta : (env.oracle i).metaOk = true)
    (hparq : (activeSnap env).do_parq = true)
    (hpok : (env.oracle i).parquetOk = true)
    (hcsv : (activeSnap env).do_csv = true)
    (hcok : (env.oracle i).csvOk = false)
    (hzip : (env.varsAt (files.length + 1)).zip_outputs = true)
    (hadd : env.zipAddOk
      (plannedPath out (stem ++ (activeSnap env).suffix) ".parquet") = true) :
    finalStatus (runWorker out files env).events i = Status.Error ∧
    plannedPath out (stem ++ (activeSnap env).suffix) ".parquet" ∈
      (runWorker out files env).produced ∧
    baseName (plannedPath out (stem ++ (activeSnap env).suffix) ".parquet") ∈
      (runWorker out files env).archived := by
  have houtcome : itemOutcome out (activeSnap env) env i stem =
      (Status.Error, [plannedPath out (stem ++ (activeSnap env).suffix) ".parquet"]) :=
    itemOutcome_parquet_then_csv_fails out (activeSnap env) env i stem hnoskip
      hread hmeta hparq hpok hcsv hcok
  have h1 : statusTrace (runWorker out files env).events i =
      [Status.Running, (itemOutcome out (activeSnap env) env i stem).1] := by
    rw [runWorker_events]
    have hx := statusTrace_reached out (activeSnap env) env files.length files 1
      (i - 1) stem hstem (fun j hj => hnostop (1 + j) (by omega) (by omega))
    rwa [show 1 + (i - 1) = i from by omega] at hx
  have hfin : finalStatus (runWorker out files env).events i = Status.Error := by
    unfold finalStatus
    rw [h1, houtcome]
    rfl
  have hmem : plannedPath out (stem ++ (activeSnap env).suffix) ".parquet" ∈
      (runWorker out files env).produced := by
    rw [runWorker_produced]
    have hx := produced_reached out (activeSnap env) env files.length files 1
      (i - 1) stem hstem (fun j hj => hnostop (1 + j) (by omega) (by omega))
    have he : 1 + (i - 1) = i := by omega
    rw [he] at hx
    exact hx _ (by rw [houtcome]; exact List.mem_singleton_self _)
  refine ⟨hfin, hmem, ?_⟩
  have hne : (runWorker out files env).produced.isEmpty = false := by
    cases hE : (runWorker out files env).produced with
    | nil => rw [hE] at hmem; cases hmem
    | cons a l => rfl
  have hzc : (runWorker out files env).zipCreated = true := by
    rw [runWorker_zipCreated, hzip, hne]
    rfl
  have hb := runWorker_bundle out files env
  rw [hzc] at hb
  simp at hb
  have hb1 : (runWorker out files env).archived =
      (bundleLoop env.zipAddOk (runWorker out files env).produced).1 :=
    congrArg Prod.fst hb
  rw [hb1]
  exact bundleLoop_mem_ok env.zipAddOk _ _ hmem hadd

/-- Witness for `C10_no_rollback` at the concrete run of
`envCsvWriteFails`. -/
theorem C10_witness :
    finalStatus (runWorker "out" ["a"] envCsvWriteFails).events 1 = Status.Error ∧
    plannedPath "out" ("a" ++ (activeSnap envCsvWriteFails).suffix) ".parquet" ∈
      (runWorker "out" ["a"] envCsvWriteFails).produced ∧
    baseName (plannedPath "out" ("a" ++ (activeSnap envCsvWriteFails).suffix) ".parquet") ∈
      (runWorker "out" ["a"] envCsvWriteFails).archived :=
  C10_no_rollback "out" ["a"] envCsvWriteFails 1 "a" (by decide) (by decide)
    (fun j hj1 hj2 => rfl) (by decide) (by decide) (by decide) (by decide)
    (by decide) (by decide) (by decide) (by decide) (by decide)

end UdfGui
